import Mathlib

/-!
Shallow embedding of the GhostFAT USB mass-storage core of `stm32-usb.rs`
(`src/firmware/usbd_scsi/src/ghost_fat.rs`) and proofs about it.

Machine integers (`u32`, `usize`, `u8`) are modelled as `Nat`; the theorems
that depend on `u32` arithmetic carry explicit `< 2^32` side conditions at
the places where wrapping could occur in the source.  Buffers are modelled
either as `List Nat` (byte lists) or as total functions `Nat → Nat` (flash
memory and the page staging buffer).  Output sectors are produced byte by
byte: the source clears the caller's 512-byte buffer and then overwrites
selected indices, so `readBlockByte g lba j` gives the final value of byte
`j`, with later writes of the source taking precedence over earlier ones.
-/

/-! ### Volume geometry constants (ghost_fat.rs lines 20-34) -/

def UF2_FLASH_START : Nat := 0x08010000

def BLOCK_SIZE : Nat := 512

def UF2_BLOCK_SIZE : Nat := 256

def UF2_BLOCKS_PER_FAT_BLOCK : Nat := BLOCK_SIZE / UF2_BLOCK_SIZE

def NUM_FAT_BLOCKS : Nat := 8000

def RESERVED_SECTORS : Nat := 1

def ROOT_DIR_SECTORS : Nat := 4

def SECTORS_PER_FAT : Nat := (NUM_FAT_BLOCKS * 2 + 511) / 512

def START_FAT0 : Nat := RESERVED_SECTORS

def START_FAT1 : Nat := START_FAT0 + SECTORS_PER_FAT

def START_ROOTDIR : Nat := START_FAT1 + SECTORS_PER_FAT

def START_CLUSTERS : Nat := START_ROOTDIR + ROOT_DIR_SECTORS

def UF2_SIZE : Nat := 0x10000 * 2

def UF2_SECTORS : Nat := UF2_SIZE / BLOCK_SIZE

def UF2_INDEX : Nat := 2

def ASCII_SPACE : Nat := 0x20

/-! ### In-memory model of the `Flash` capability

The `Flash` trait exposes a page size, an inclusive valid address range,
one page staging buffer together with the address currently staged, the
flash byte content itself, and the page operations used by `write_bytes`.
The model is the "every operation succeeds" instance demanded by the
claims: `read_page`, `flush_page` and `read_bytes` are total. -/

structure FlashModel where
  page_size : Nat
  address_start : Nat
  address_end : Nat
  mem : Nat → Nat
  page_buffer : Nat → Nat
  current_page : Option Nat

/-- ASCII byte values of a string (every catalog string is ASCII). -/
def asciiBytes (s : String) : List Nat := s.data.map Char.toNat

/-- Copy `min n xs.length` bytes of `xs` into an `n`-byte buffer and fill the
rest with `fill` — the copy-then-pad idiom of `FatFile::with_content`,
`fat_boot_block` and friends. -/
def padBytes (n fill : Nat) (xs : List Nat) : List Nat :=
  xs.take n ++ List.replicate (n - xs.length) fill

/-- Little-endian byte `k` of the natural number `v`. -/
def leByte (v k : Nat) : Nat := v / 256 ^ k % 256

/-! ### `DirectoryEntry` (ghost_fat.rs lines 147-188)

Packed little-endian layout: name bytes 0-10, attrs 11, reserved 12,
create_time_fine 13, create_time 14-15, create_date 16-17,
last_access_date 18-19, high_start_cluster 20-21, update_time 22-23,
update_date 24-25, start_cluster 26-27, size 28-31. -/

structure DirectoryEntry where
  name : List Nat
  attrs : Nat
  reserved : Nat
  create_time_fine : Nat
  create_time : Nat
  create_date : Nat
  last_access_date : Nat
  high_start_cluster : Nat
  update_time : Nat
  update_date : Nat
  start_cluster : Nat
  size : Nat

/-- `DirectoryEntry::default()`: all fields zero. -/
def DirectoryEntry.default : DirectoryEntry :=
  { name := List.replicate 11 0, attrs := 0, reserved := 0, create_time_fine := 0,
    create_time := 0, create_date := 0, last_access_date := 0, high_start_cluster := 0,
    update_time := 0, update_date := 0, start_cluster := 0, size := 0 }

/-- `DirectoryEntry::BYTES` = 32. -/
def DirectoryEntry.BYTES : Nat := 32

/-- Byte `j` of the packed 32-byte directory entry. -/
def dirEntryByte (d : DirectoryEntry) (j : Nat) : Nat :=
  if j < 11 then d.name.getD j 0
  else if j = 11 then d.attrs
  else if j = 12 then d.reserved
  else if j = 13 then d.create_time_fine
  else if j < 16 then leByte d.create_time (j - 14)
  else if j < 18 then leByte d.create_date (j - 16)
  else if j < 20 then leByte d.last_access_date (j - 18)
  else if j < 22 then leByte d.high_start_cluster (j - 20)
  else if j < 24 then leByte d.update_time (j - 22)
  else if j < 26 then leByte d.update_date (j - 24)
  else if j < 28 then leByte d.start_cluster (j - 26)
  else if j < 32 then leByte d.size (j - 28)
  else 0

/-! ### `FatBootBlock` (ghost_fat.rs lines 246-342)

Packed little-endian layout: jump_instruction 0-2, oem_info 3-10,
sector_size 11-12, sectors_per_cluster 13, reserved_sectors 14-15,
fat_copies 16, root_directory_entries 17-18, total_sectors16 19-20,
media_descriptor 21, sectors_per_fat 22-23, sectors_per_track 24-25,
heads 26-27, hidden_sectors 28-31, total_sectors32 32-35,
physical_drive_num 36, reserved 37, extended_boot_sig 38,
volume_serial_number 39-42, volume_label 43-53,
filesystem_identifier 54-61. -/

structure FatBootBlock where
  jump_instruction : List Nat
  oem_info : List Nat
  sector_size : Nat
  sectors_per_cluster : Nat
  reserved_sectors : Nat
  fat_copies : Nat
  root_directory_entries : Nat
  total_sectors16 : Nat
  media_descriptor : Nat
  sectors_per_fat : Nat
  sectors_per_track : Nat
  heads : Nat
  hidden_sectors : Nat
  total_sectors32 : Nat
  physical_drive_num : Nat
  reserved : Nat
  extended_boot_sig : Nat
  volume_serial_number : Nat
  volume_label : List Nat
  filesystem_identifier : List Nat

/-- `FatBootBlock::BYTES` = 62. -/
def FatBootBlock.BYTES : Nat := 62

/-- `fat_boot_block()`: the boot sector record built once at construction. -/
def fat_boot_block : FatBootBlock :=
  { jump_instruction := [0xEB, 0x3C, 0x90],
    oem_info := padBytes 8 ASCII_SPACE (asciiBytes "UF2 UF2"),
    sector_size := 512,
    sectors_per_cluster := 1,
    reserved_sectors := RESERVED_SECTORS,
    fat_copies := 2,
    root_directory_entries := ROOT_DIR_SECTORS * 512 / 32,
    total_sectors16 := NUM_FAT_BLOCKS - 2,
    media_descriptor := 0xF8,
    sectors_per_fat := SECTORS_PER_FAT,
    sectors_per_track := 1,
    heads := 1,
    hidden_sectors := 0,
    total_sectors32 := NUM_FAT_BLOCKS - 1,
    physical_drive_num := 0,
    reserved := 0,
    extended_boot_sig := 0x29,
    volume_serial_number := 0x00420042,
    volume_label := padBytes 11 ASCII_SPACE (asciiBytes "BLUEPILL"),
    filesystem_identifier := padBytes 8 ASCII_SPACE (asciiBytes "FAT16") }

/-- Byte `j` of the packed 62-byte boot sector record. -/
def fatBootBlockByte (b : FatBootBlock) (j : Nat) : Nat :=
  if j < 3 then b.jump_instruction.getD j 0
  else if j < 11 then b.oem_info.getD (j - 3) 0
  else if j < 13 then leByte b.sector_size (j - 11)
  else if j = 13 then b.sectors_per_cluster
  else if j < 16 then leByte b.reserved_sectors (j - 14)
  else if j = 16 then b.fat_copies
  else if j < 19 then leByte b.root_directory_entries (j - 17)
  else if j < 21 then leByte b.total_sectors16 (j - 19)
  else if j = 21 then b.media_descriptor
  else if j < 24 then leByte b.sectors_per_fat (j - 22)
  else if j < 26 then leByte b.sectors_per_track (j - 24)
  else if j < 28 then leByte b.heads (j - 26)
  else if j < 32 then leByte b.hidden_sectors (j - 28)
  else if j < 36 then leByte b.total_sectors32 (j - 32)
  else if j = 36 then b.physical_drive_num
  else if j = 37 then b.reserved
  else if j = 38 then b.extended_boot_sig
  else if j < 43 then leByte b.volume_serial_number (j - 39)
  else if j < 54 then b.volume_label.getD (j - 43) 0
  else if j < 62 then b.filesystem_identifier.getD (j - 54) 0
  else 0

/-! ### The virtual file catalog (ghost_fat.rs lines 191-244) -/

inductive FatFileContent where
  | Static : List Nat → FatFileContent
  | Uf2 : FatFileContent

structure FatFile where
  name : List Nat
  content : FatFileContent

/-- `FatFile::with_content`: name space-padded to 11 bytes, static content
space-padded to 255 bytes. -/
def FatFile.with_content (name_ content_ : List Nat) : FatFile :=
  { name := padBytes 11 ASCII_SPACE name_,
    content := FatFileContent.Static (padBytes 255 ASCII_SPACE content_) }

/-- `fat_files()`: the fixed three-entry catalog; entry `UF2_INDEX` (= 2) is
the dynamic flash-backed pseudo-file. -/
def fat_files : List FatFile :=
  [FatFile.with_content (asciiBytes "INFO_UF2TXT")
      (asciiBytes "UF2 Bootloader 1.2.3\r\nModel: BluePill\r\nBoard-ID: xyz_123\r\n"),
   FatFile.with_content (asciiBytes "INDEX   HTM")
      (asciiBytes "<!doctype html>\n<html><body><script>\nlocation.replace(INDEX_URL);\n</script></body></html>\n"),
   { name := asciiBytes "CURRENT UF2", content := FatFileContent.Uf2 }]

/-- Fallback catalog entry for out-of-range indexing (never reached on the
index ranges the theorems use). -/
def fatFileFallback : FatFile := { name := [], content := FatFileContent.Uf2 }

/-! ### `read_block` (ghost_fat.rs lines 377-473) -/

/-- Byte `j` of a synthesized FAT sector (`section_index` counts sectors from
the start of one FAT copy).  The source first clears the buffer, prefills the
reserved/static entries of sector 0 (`block[0] = 0xF0`, bytes 1 to
`fat_files.len()*2+4 - 1` set to `0xFF`), then the loop over the 256 entries
of the sector overwrites the entries of the dynamic file's chain; the loop
conditions therefore take precedence here. -/
def fatSectorByte (section_index j : Nat) : Nat :=
  let uf2_first_sector := fat_files.length + 1
  let uf2_last_sector := uf2_first_sector + UF2_SECTORS - 1
  let v := section_index * 256 + j / 2
  if uf2_first_sector ≤ v ∧ v < uf2_last_sector then leByte (v + 1) (j % 2)
  else if v = uf2_last_sector then 0xFF
  else if section_index = 0 ∧ j = 0 then 0xF0
  else if section_index = 0 ∧ 1 ≤ j ∧ j < fat_files.length * 2 + 4 then 0xFF
  else 0

/-- The volume-label directory entry written at the start of the first
root-directory sector: boot-sector label as name, attribute byte 0x28. -/
def volumeLabelEntry : DirectoryEntry :=
  { DirectoryEntry.default with name := fat_boot_block.volume_label, attrs := 0x28 }

/-- The directory entry synthesized for catalog file `i`: fixed name,
start cluster `i + 2`, size = static content length, or the flash window
span times `UF2_BLOCKS_PER_FAT_BLOCK` for the dynamic file. -/
def fileDirEntry (g : FlashModel) (i : Nat) : DirectoryEntry :=
  let info := fat_files.getD i fatFileFallback
  { DirectoryEntry.default with
    name := info.name,
    start_cluster := i + 2,
    size := match info.content with
      | FatFileContent.Static content => content.length
      | FatFileContent.Uf2 => (g.address_end - g.address_start) * UF2_BLOCKS_PER_FAT_BLOCK }

/-- Byte `j` of a root-directory sector: sector 0 carries the volume label
entry followed by one 32-byte entry per catalog file; everything else is
left zero. -/
def rootDirSectorByte (g : FlashModel) (section_index j : Nat) : Nat :=
  if section_index = 0 then
    if j < DirectoryEntry.BYTES then dirEntryByte volumeLabelEntry j
    else if j < (fat_files.length + 1) * DirectoryEntry.BYTES then
      dirEntryByte (fileDirEntry g (j / DirectoryEntry.BYTES - 1)) (j % DirectoryEntry.BYTES)
    else 0
  else 0

/-! ### The transfer block (external `uf2` crate) -/

/-- Modelled from the spec: the 512-byte transfer-block record of the
external `uf2` crate (spec §3 TransferBlock, §4.4, §6): leading magic pair,
flags, target address, payload length, block sequence number, total block
count, a family identifier, 476 data bytes, and a trailing magic. -/
structure Uf2Block where
  magic_start0 : Nat
  magic_start1 : Nat
  flags : Nat
  target_address : Nat
  payload_size : Nat
  block_number : Nat
  number_of_blocks : Nat
  family_id : Nat
  data : List Nat
  magic_end : Nat

/-- Modelled from the spec: the leading/trailing magic marker values of the
transfer-block wire format (exact values live in the external `uf2` crate;
only their fixed, distinguishable presence matters to the claims). -/
def UF2_MAGIC_START0 : Nat := 0x0A324655

def UF2_MAGIC_START1 : Nat := 0x9E5D5157

def UF2_MAGIC_END : Nat := 0x0AB16F30

/-- `Uf2Block::BYTES` = 512. -/
def Uf2Block.BYTES : Nat := 512

/-- Modelled from the spec: `Uf2Block::default()` — matching magic/trailer
values filled in, everything else zero (§4.4 Encode: "fill in matching
magic/trailer values"). -/
def Uf2Block.default : Uf2Block :=
  { magic_start0 := UF2_MAGIC_START0, magic_start1 := UF2_MAGIC_START1, flags := 0,
    target_address := 0, payload_size := 0, block_number := 0, number_of_blocks := 0,
    family_id := 0, data := List.replicate 476 0, magic_end := UF2_MAGIC_END }

/-- Byte `j` of the serialized 512-byte transfer block: header words at
offsets 0,4,8,12,16,20,24,28 little-endian, data at 32-507, trailing magic
at 508-511. -/
def uf2PackByte (u : Uf2Block) (j : Nat) : Nat :=
  if j < 4 then leByte u.magic_start0 j
  else if j < 8 then leByte u.magic_start1 (j - 4)
  else if j < 12 then leByte u.flags (j - 8)
  else if j < 16 then leByte u.target_address (j - 12)
  else if j < 20 then leByte u.payload_size (j - 16)
  else if j < 24 then leByte u.block_number (j - 20)
  else if j < 28 then leByte u.number_of_blocks (j - 24)
  else if j < 32 then leByte u.family_id (j - 28)
  else if j < 508 then u.data.getD (j - 32) 0
  else if j < 512 then leByte u.magic_end (j - 508)
  else 0

/-- Little-endian 32-bit word of a byte list at offset `off`. -/
def readLe4 (bs : List Nat) (off : Nat) : Nat :=
  bs.getD off 0 + 256 * bs.getD (off + 1) 0 + 65536 * bs.getD (off + 2) 0 +
    16777216 * bs.getD (off + 3) 0

/-- Modelled from the spec: `Uf2Block::parse` of the external `uf2` crate —
verify the leading and trailing magic markers on an exactly-512-byte sector;
any mismatch or short sector silently discards the block (spec §4.4 Decode).
On success the header fields and the data bytes are extracted. -/
def Uf2Block.parse (bs : List Nat) : Option Uf2Block :=
  if bs.length = Uf2Block.BYTES ∧ readLe4 bs 0 = UF2_MAGIC_START0 ∧
      readLe4 bs 4 = UF2_MAGIC_START1 ∧ readLe4 bs 508 = UF2_MAGIC_END then
    some { magic_start0 := readLe4 bs 0, magic_start1 := readLe4 bs 4,
           flags := readLe4 bs 8, target_address := readLe4 bs 12,
           payload_size := readLe4 bs 16, block_number := readLe4 bs 20,
           number_of_blocks := readLe4 bs 24, family_id := readLe4 bs 28,
           data := (bs.drop 32).take 476, magic_end := readLe4 bs 508 }
  else none

/-- The transfer block the encode path builds for dynamic-file block number
`uf2_block_num` (ghost_fat.rs lines 457-467): 256 live flash bytes at the
mapped address, `payload_size = 256`, `block_number = uf2_block_num`,
`number_of_blocks = (address_range.end - address_range.start) / 256`. -/
def uf2BlockFor (g : FlashModel) (uf2_block_num : Nat) : Uf2Block :=
  let address := UF2_FLASH_START + uf2_block_num * UF2_BLOCK_SIZE
  { Uf2Block.default with
    data := (List.range UF2_BLOCK_SIZE).map (fun i => g.mem (address + i)) ++
      List.replicate (476 - UF2_BLOCK_SIZE) 0,
    payload_size := UF2_BLOCK_SIZE,
    target_address := address,
    block_number := uf2_block_num,
    number_of_blocks := (g.address_end - g.address_start) / UF2_BLOCK_SIZE }

/-- Byte `j` of a data-region sector (`section_index` = `lba - START_CLUSTERS`):
static catalog files return their padded content, the dynamic file's range
maps to flash through the transfer-block encode path guarded by the
`address_range.contains` checks of the source; everything else stays zero. -/
def dataSectorByte (g : FlashModel) (section_index j : Nat) : Nat :=
  if section_index < UF2_INDEX then
    match (fat_files.getD section_index fatFileFallback).content with
    | FatFileContent.Static content => if j < content.length then content.getD j 0 else 0
    | FatFileContent.Uf2 => 0
  else
    let uf2_block_num := section_index - 2
    let address := UF2_FLASH_START + uf2_block_num * UF2_BLOCK_SIZE
    if g.address_start ≤ address ∧ address ≤ g.address_end ∧
        g.address_start ≤ address + UF2_BLOCK_SIZE ∧
        address + UF2_BLOCK_SIZE ≤ g.address_end then
      uf2PackByte (uf2BlockFor g uf2_block_num) j
    else 0

/-- Byte `j` (0 ≤ j < 512) of `GhostFat::read_block(lba)`.  The source
clears the whole output buffer first, so every byte no region writes is 0. -/
def readBlockByte (g : FlashModel) (lba j : Nat) : Nat :=
  if lba = 0 then
    if j = 510 then 0x55
    else if j = 511 then 0xAA
    else fatBootBlockByte fat_boot_block j
  else if lba < START_ROOTDIR then
    let section_index := lba - START_FAT0
    fatSectorByte
      (if SECTORS_PER_FAT ≤ section_index then section_index - SECTORS_PER_FAT
       else section_index) j
  else if lba < START_CLUSTERS then
    rootDirSectorByte g (lba - START_ROOTDIR) j
  else
    dataSectorByte g (lba - START_CLUSTERS) j

/-- The full 512-byte sector `GhostFat::read_block(lba)` hands back. -/
def readBlockBytes (g : FlashModel) (lba : Nat) : List Nat :=
  (List.range BLOCK_SIZE).map (readBlockByte g lba)

/-- `BlockDevice::max_lba` = `NUM_FAT_BLOCKS - 1`. -/
def max_lba : Nat := NUM_FAT_BLOCKS - 1

/-! ### The page write coalescer: `Flash::write_bytes` (ghost_fat.rs lines 98-141) -/

/-- `Flash::page_address`: `address & !(page_size - 1)` on `u32`; the
complement of `page_size - 1` in 32 bits is `2^32 - page_size`. -/
def page_address (page_size address : Nat) : Nat :=
  address &&& (2 ^ 32 - page_size)

/-- `Flash::read_page`: load the page at `p` into the staging buffer and
record it as the current page (always succeeds in this model). -/
def readPage (g : FlashModel) (p : Nat) : FlashModel :=
  { g with page_buffer := fun j => g.mem (p + j), current_page := some p }

/-- `Flash::flush_page`: save the staged page back to flash (erase and
program as needed — in the all-operations-succeed model the net effect is
that the staged page's bytes land in memory); with nothing staged there is
nothing to save. -/
def flushPage (g : FlashModel) : FlashModel :=
  match g.current_page with
  | none => g
  | some p =>
    { g with mem := fun a => if p ≤ a ∧ a < p + g.page_size then g.page_buffer (a - p) else g.mem a }

/-- One iteration of the `write_bytes` page loop: flush/stage as needed,
then overlay the slice of `bytes` that lands in this page onto the staging
buffer (ghost_fat.rs lines 116-136). -/
def writeBytesGo (address : Nat) (bytes : List Nat) (g : FlashModel) (page : Nat) : FlashModel :=
  let g1 := match g.current_page with
    | some cp => if cp = page then g else readPage (flushPage g) page
    | none => readPage g page
  if page < address then
    let offset := address - page
    let count := min (g1.page_size - offset) bytes.length
    { g1 with page_buffer := fun j =>
        if offset ≤ j ∧ j < offset + count then bytes.getD (j - offset) 0 else g1.page_buffer j }
  else
    let offset := page - address
    let count := min (bytes.length - offset) g1.page_size
    { g1 with page_buffer := fun j =>
        if j < count then bytes.getD (offset + j) 0 else g1.page_buffer j }

/-- `Flash::write_bytes(address, bytes)`: iterate the loop body over the
pages from `page_address(address)` to `page_address(address + len - 1)` in
steps of one page, then flush the last staged page. -/
def write_bytes (g : FlashModel) (address : Nat) (bytes : List Nat) : FlashModel :=
  let start_page := page_address g.page_size address
  let end_page := page_address g.page_size (address + bytes.length - 1)
  let num_pages := (end_page - start_page) / g.page_size + 1
  flushPage (((List.range num_pages).map (fun t => start_page + t * g.page_size)).foldl
    (writeBytesGo address bytes) g)

/-! ### `write_block` (ghost_fat.rs lines 475-505) -/

/-- `uf2_family_is_correct` (ghost_fat.rs line 507): always true. -/
def uf2_family_is_correct (_u : Uf2Block) : Bool := true

/-- The codec/coalescer dispatch `write_block` performs once the lba guard
has passed (ghost_fat.rs lines 483-503): drop short blocks, drop blocks the
transfer-block parser rejects, drop wrong-family blocks, otherwise hand
`payload_size` data bytes to `write_bytes` at the block's target address. -/
def uf2WriteDispatch (g : FlashModel) (block : List Nat) : FlashModel :=
  if block.length < Uf2Block.BYTES then g
  else
    match Uf2Block.parse block with
    | none => g
    | some u =>
      if uf2_family_is_correct u then write_bytes g u.target_address (u.data.take u.payload_size)
      else g

/-- `GhostFat::write_block(lba, block)`: ignore every lba below
`START_CLUSTERS + fat_files.len()`, otherwise run the codec dispatch. -/
def ghostFatWriteBlock (g : FlashModel) (lba : Nat) (block : List Nat) : FlashModel :=
  if lba < START_CLUSTERS + fat_files.length then g
  else uf2WriteDispatch g block

/-- `<GhostFat as BlockDevice>::write_block` (ghost_fat.rs lines 358-361):
runs `GhostFat::write_block` and unconditionally reports success; the `Bool`
is `true` exactly when no error is signalled to the caller. -/
def blockDeviceWriteBlock (g : FlashModel) (lba : Nat) (block : List Nat) :
    Bool × FlashModel :=
  (true, ghostFatWriteBlock g lba block)

/-! ### Helper lemmas -/

theorem SECTORS_PER_FAT_eq : SECTORS_PER_FAT = 32 := rfl

theorem START_ROOTDIR_eq : START_ROOTDIR = 65 := rfl

theorem START_CLUSTERS_eq : START_CLUSTERS = 69 := rfl

theorem UF2_SECTORS_eq : UF2_SECTORS = 256 := rfl

theorem fat_files_length_eq : fat_files.length = 3 := rfl

theorem readBlockBytes_getD (g : FlashModel) (lba j : Nat) (hj : j < BLOCK_SIZE) :
    (readBlockBytes g lba).getD j 0 = readBlockByte g lba j := by
  unfold readBlockBytes
  rw [List.getD_eq_getElem?_getD, List.getElem?_map, List.getElem?_range hj]
  rfl

theorem readBlockBytes_length (g : FlashModel) (lba : Nat) :
    (readBlockBytes g lba).length = BLOCK_SIZE := by
  simp [readBlockBytes]

/-- A fixed concrete flash capability used to instantiate theorems:
1 KiB pages, valid window `0x08010000 ..= 0x08020000`, deterministic
nonzero content, nothing staged. -/
def flashExample : FlashModel :=
  { page_size := 1024, address_start := 0x08010000, address_end := 0x08020000,
    mem := fun a => a % 251, page_buffer := fun _ => 0, current_page := none }

theorem START_FAT0_eq : START_FAT0 = 1 := rfl

theorem START_FAT1_eq : START_FAT1 = 33 := rfl

/-- Claim C8: `read_block(0)` yields the packed boot sector record
(`fat_boot_block` as built once at construction) at the start of the
sector, with boot-signature bytes 0x55 at offset 510 and 0xAA at 511. -/
theorem read_block_boot (g : FlashModel) :
    (∀ j, j < FatBootBlock.BYTES →
      (readBlockBytes g 0).getD j 0 = fatBootBlockByte fat_boot_block j) ∧
    (readBlockBytes g 0).getD 510 0 = 0x55 ∧
    (readBlockBytes g 0).getD 511 0 = 0xAA := by
  refine ⟨fun j hj => ?_, ?_, ?_⟩
  · unfold FatBootBlock.BYTES at hj
    rw [readBlockBytes_getD g 0 j (by unfold BLOCK_SIZE; omega)]
    unfold readBlockByte
    rw [if_pos rfl, if_neg (by omega), if_neg (by omega)]
  · rw [readBlockBytes_getD g 0 510 (by unfold BLOCK_SIZE; omega)]
    rfl
  · rw [readBlockBytes_getD g 0 511 (by unfold BLOCK_SIZE; omega)]
    rfl

/-- Witness for C8 at the concrete flash capability `flashExample` and
byte offset 0. -/
theorem read_block_boot_witness :
    (readBlockBytes flashExample 0).getD 0 0 = fatBootBlockByte fat_boot_block 0 ∧
    (readBlockBytes flashExample 0).getD 510 0 = 0x55 ∧
    (readBlockBytes flashExample 0).getD 511 0 = 0xAA :=
  ⟨(read_block_boot flashExample).1 0 (by decide),
   (read_block_boot flashExample).2.1, (read_block_boot flashExample).2.2⟩

/-- Claim C10: the two FAT copies are byte-identical — for every sector
offset `k` inside one FAT copy and every flash state, the sector read at
`START_FAT0 + k` equals the sector read at `START_FAT1 + k` (the source
folds any FAT1 index back onto FAT0 before synthesizing the sector). -/
theorem fat_copies_equal (g : FlashModel) (k : Nat) (hk : k < SECTORS_PER_FAT) :
    readBlockBytes g (START_FAT0 + k) = readBlockBytes g (START_FAT1 + k) := by
  rw [SECTORS_PER_FAT_eq] at hk
  unfold readBlockBytes
  apply List.map_congr_left
  intro j _
  have h1 : readBlockByte g (START_FAT0 + k) j = fatSectorByte k j := by
    unfold readBlockByte
    simp only [START_FAT0_eq, START_ROOTDIR_eq, SECTORS_PER_FAT_eq]
    rw [if_neg (by omega), if_pos (by omega), if_neg (by omega)]
    congr 1
    omega
  have h2 : readBlockByte g (START_FAT1 + k) j = fatSectorByte k j := by
    unfold readBlockByte
    simp only [START_FAT1_eq, START_ROOTDIR_eq, SECTORS_PER_FAT_eq, START_FAT0_eq]
    rw [if_neg (by omega), if_pos (by omega), if_pos (by omega)]
    congr 1
    omega
  rw [h1, h2]

/-- Witness for C10: FAT sector offset 0 at the concrete flash capability. -/
theorem fat_copies_equal_witness :
    readBlockBytes flashExample (START_FAT0 + 0) = readBlockBytes flashExample (START_FAT1 + 0) :=
  fat_copies_equal flashExample 0 (by decide)

/-- Claim C9: `read_block` is deterministic — the 512-byte sector is a pure
function of the lba and the flash capability state it reads (the byte
content and the address window); two calls with the same lba and the same
flash state, with no intervening write, are byte-identical.  The staging
buffer and staged-page mark may even differ between the two states. -/
theorem read_block_pure (g1 g2 : FlashModel) (lba : Nat)
    (hmem : ∀ a, g1.mem a = g2.mem a)
    (hs : g1.address_start = g2.address_start)
    (he : g1.address_end = g2.address_end) :
    readBlockBytes g1 lba = readBlockBytes g2 lba := by
  unfold readBlockBytes
  apply List.map_congr_left
  intro j _
  unfold readBlockByte rootDirSectorByte dataSectorByte fileDirEntry uf2BlockFor
  simp only [hmem, hs, he]

/-- Witness for C9: two states sharing content and window but with
different staging buffers and staged pages give identical sectors. -/
theorem read_block_pure_witness :
    readBlockBytes flashExample 71 =
      readBlockBytes { flashExample with page_buffer := fun _ => 9, current_page := some 0 } 71 :=
  read_block_pure _ _ 71 (fun _ => rfl) rfl rfl

theorem UF2_INDEX_eq : UF2_INDEX = 2 := rfl

/-- Claim C7: for every lba up to `max_lba` and every flash state,
`read_block` returns normally with exactly 512 bytes (in the model every
flash read is total, matching the claim's never-fails contract), and any
lba at or below `max_lba` outside the boot-sector, FAT, root-directory and
mapped data regions — i.e. a data-region lba of the dynamic file whose
mapped flash address fails the source's window containment check — yields
an all-zero sector, the output buffer having been cleared before region
dispatch. -/
theorem read_block_total_zero (g : FlashModel) (lba : Nat) (hlba : lba ≤ max_lba) :
    (readBlockBytes g lba).length = BLOCK_SIZE ∧
    (∀ j, j < BLOCK_SIZE →
      START_CLUSTERS ≤ lba → UF2_INDEX ≤ lba - START_CLUSTERS →
      ¬ (g.address_start ≤ UF2_FLASH_START + (lba - START_CLUSTERS - 2) * UF2_BLOCK_SIZE ∧
         UF2_FLASH_START + (lba - START_CLUSTERS - 2) * UF2_BLOCK_SIZE ≤ g.address_end ∧
         g.address_start ≤ UF2_FLASH_START + (lba - START_CLUSTERS - 2) * UF2_BLOCK_SIZE + UF2_BLOCK_SIZE ∧
         UF2_FLASH_START + (lba - START_CLUSTERS - 2) * UF2_BLOCK_SIZE + UF2_BLOCK_SIZE ≤ g.address_end) →
      (readBlockBytes g lba).getD j 0 = 0) := by
  refine ⟨readBlockBytes_length g lba, fun j hj hin hsec hwin => ?_⟩
  rw [readBlockBytes_getD g lba j hj]
  rw [START_CLUSTERS_eq] at hin
  rw [UF2_INDEX_eq, START_CLUSTERS_eq] at hsec
  unfold readBlockByte
  rw [if_neg (by omega), if_neg (by rw [START_ROOTDIR_eq]; omega),
    if_neg (by rw [START_CLUSTERS_eq]; omega)]
  simp only [dataSectorByte, UF2_INDEX_eq, START_CLUSTERS_eq] at hwin ⊢
  rw [if_neg (by omega), if_neg hwin]

/-- Witness for C7: a dynamic-file lba whose mapped address lies far above
the window of `flashExample`. -/
theorem read_block_total_zero_witness :
    (readBlockBytes flashExample 5000).length = BLOCK_SIZE ∧
    (readBlockBytes flashExample 5000).getD 17 0 = 0 := by
  refine ⟨(read_block_total_zero flashExample 5000 (by decide)).1, ?_⟩
  refine (read_block_total_zero flashExample 5000 (by decide)).2 17 (by decide)
    (by decide) (by decide) (by decide)

/-- The FAT-copy fold of ghost_fat.rs lines 391-395: a sector index inside
FAT1 is mapped back onto the same offset in FAT0. -/
def foldedFatSection (lba : Nat) : Nat :=
  if SECTORS_PER_FAT ≤ lba - START_FAT0 then lba - START_FAT0 - SECTORS_PER_FAT
  else lba - START_FAT0

theorem readBlockByte_fat (g : FlashModel) (lba j : Nat)
    (h0 : START_FAT0 ≤ lba) (h1 : lba < START_ROOTDIR) :
    readBlockByte g lba j = fatSectorByte (foldedFatSection lba) j := by
  rw [START_FAT0_eq] at h0
  rw [START_ROOTDIR_eq] at h1
  unfold readBlockByte foldedFatSection
  rw [if_neg (by omega), if_pos (by rw [START_ROOTDIR_eq]; omega)]

/-- Claim C3 (amended): in every FAT sector, with `v` the global FAT entry
index of byte `j`, the dynamic file's chain occupies the fixed cluster
range `[fat_files.len()+1, fat_files.len()+1 + UF2_SECTORS - 1]`: each
non-terminal entry links cluster `v` to `v + 1` (little-endian), the last
cluster holds the end-of-chain marker 0xFFFF, and entries beyond the chain
are zero.  The chain length is the constant `UF2_SECTORS = UF2_SIZE /
BLOCK_SIZE` — it does not track the flash capability's address window. -/
theorem fat_chain_amended (g : FlashModel) (lba j v : Nat)
    (h0 : START_FAT0 ≤ lba) (h1 : lba < START_ROOTDIR) (hj : j < BLOCK_SIZE)
    (hv : v = foldedFatSection lba * 256 + j / 2) :
    (fat_files.length + 1 ≤ v → v < fat_files.length + 1 + UF2_SECTORS - 1 →
      readBlockByte g lba j = leByte (v + 1) (j % 2)) ∧
    (v = fat_files.length + 1 + UF2_SECTORS - 1 → readBlockByte g lba j = 0xFF) ∧
    (fat_files.length + 1 + UF2_SECTORS - 1 < v → readBlockByte g lba j = 0) := by
  rw [readBlockByte_fat g lba j h0 h1]
  simp only [fat_files_length_eq, UF2_SECTORS_eq]
  unfold fatSectorByte
  simp only [fat_files_length_eq, UF2_SECTORS_eq]
  refine ⟨fun ha hb => ?_, fun he => ?_, fun hgt => ?_⟩
  · rw [if_pos (by omega)]
    congr 1
    omega
  · rw [if_neg (by omega), if_pos (by omega)]
  · rw [if_neg (by omega), if_neg (by omega), if_neg (by omega), if_neg (by omega)]

/-- Witness for C3's amended theorem: the entry of cluster 100 in FAT
sector 0 links to cluster 101. -/
theorem fat_chain_amended_witness :
    readBlockByte flashExample 1 200 = leByte 101 0 :=
  (fat_chain_amended flashExample 1 200 100 (by decide) (by decide) (by decide)
    (by decide)).1 (by decide) (by decide)

/-- The cluster count the claim's window-tracking chain-length formula
predicts for the dynamic file: ceil(S/C) with S the directory byte size
derived from the flash window and C the 512-byte cluster. -/
def specUf2ChainClusters (g : FlashModel) : Nat :=
  ((g.address_end - g.address_start) * UF2_BLOCKS_PER_FAT_BLOCK + (BLOCK_SIZE - 1)) / BLOCK_SIZE

/-- A flash capability whose window spans only 0xFFF bytes, so the claim's
formula predicts a 16-cluster chain for the dynamic file. -/
def flashSmallWindow : FlashModel :=
  { page_size := 1024, address_start := 0x08010000, address_end := 0x08010FFF,
    mem := fun _ => 0, page_buffer := fun _ => 0, current_page := none }

/-- Counterexample to claim C3 as stated: with the small window, the
claim's chain length is 16 clusters, so the chain's last cluster would be
`fat_files.len()+1 + 16 - 1 = 19` and its FAT entry the end-of-chain marker
0xFFFF; but the synthesized FAT sector stores the link value 20 there
(bytes 20, 0), because the chain length is the window-independent constant
`UF2_SECTORS` = 256. -/
theorem fat_chain_window_cex :
    specUf2ChainClusters flashSmallWindow = 16 ∧
    readBlockByte flashSmallWindow START_FAT0
      (2 * (fat_files.length + 1 + specUf2ChainClusters flashSmallWindow - 1)) = 20 ∧
    readBlockByte flashSmallWindow START_FAT0
      (2 * (fat_files.length + 1 + specUf2ChainClusters flashSmallWindow - 1) + 1) = 0 := by
  refine ⟨by decide, by decide, by decide⟩

theorem rootdir_entry_byte (g : FlashModel) (i j : Nat) (hi : i < fat_files.length)
    (hj : j < DirectoryEntry.BYTES) :
    readBlockByte g START_ROOTDIR ((i + 1) * DirectoryEntry.BYTES + j) =
      dirEntryByte (fileDirEntry g i) j := by
  rw [fat_files_length_eq] at hi
  unfold DirectoryEntry.BYTES at hj
  unfold readBlockByte
  rw [if_neg (by rw [START_ROOTDIR_eq]; omega),
    if_neg (by rw [START_ROOTDIR_eq]; omega),
    if_pos (by rw [START_ROOTDIR_eq, START_CLUSTERS_eq]; omega)]
  unfold rootDirSectorByte
  rw [if_pos (by omega)]
  simp only [fat_files_length_eq, DirectoryEntry.BYTES]
  rw [if_neg (by omega), if_pos (by omega)]
  have e1 : ((i + 1) * 32 + j) / 32 - 1 = i := by omega
  have e2 : ((i + 1) * 32 + j) % 32 = j := by omega
  rw [e1, e2]

theorem rootdir_label_byte (g : FlashModel) (j : Nat) (hj : j < DirectoryEntry.BYTES) :
    readBlockByte g START_ROOTDIR j = dirEntryByte volumeLabelEntry j := by
  unfold DirectoryEntry.BYTES at hj
  unfold readBlockByte
  rw [if_neg (by rw [START_ROOTDIR_eq]; omega),
    if_neg (by rw [START_ROOTDIR_eq]; omega),
    if_pos (by rw [START_ROOTDIR_eq, START_CLUSTERS_eq]; omega)]
  unfold rootDirSectorByte
  rw [if_pos (by omega)]
  rw [if_pos (by unfold DirectoryEntry.BYTES; omega)]

theorem fileDirEntry_size_static (g : FlashModel) (i : Nat) (c : List Nat)
    (hc : (fat_files.getD i fatFileFallback).content = FatFileContent.Static c) :
    (fileDirEntry g i).size = c.length := by
  have h2 : (fileDirEntry g i).size =
      match (fat_files.getD i fatFileFallback).content with
      | FatFileContent.Static content => content.length
      | FatFileContent.Uf2 => (g.address_end - g.address_start) * UF2_BLOCKS_PER_FAT_BLOCK := rfl
  rw [h2, hc]

/-- Claim C4: the first root-directory sector holds a volume-label entry
(attribute byte 0x28, label bit 3 set, name equal to the boot sector's
volume label) followed by one 32-byte entry per catalog file in catalog
order, each with that file's fixed 11-byte name, starting clusters that
are unique and ascending (file `i` gets cluster `i + 2`, little-endian in
bytes 26-27), and a size field (bytes 28-31) equal to the stored content
buffer's length for static files and to the flash window span times
`UF2_BLOCKS_PER_FAT_BLOCK` — the total flash window as addressed through
transfer blocks — for the dynamic file; all remaining bytes of the sector
are zero. -/
theorem root_dir_first_sector (g : FlashModel) :
    (∀ j, j < 11 → readBlockByte g START_ROOTDIR j = fat_boot_block.volume_label.getD j 0) ∧
    (readBlockByte g START_ROOTDIR 11 = 0x28 ∧ Nat.testBit 0x28 3 = true) ∧
    (∀ i, i < fat_files.length → ∀ j, j < 11 →
      readBlockByte g START_ROOTDIR ((i + 1) * DirectoryEntry.BYTES + j) =
        (fat_files.getD i fatFileFallback).name.getD j 0) ∧
    (∀ i, i < fat_files.length →
      readBlockByte g START_ROOTDIR ((i + 1) * DirectoryEntry.BYTES + 26) = i + 2 ∧
      readBlockByte g START_ROOTDIR ((i + 1) * DirectoryEntry.BYTES + 27) = 0) ∧
    (∀ i1 i2, i1 < i2 → i2 < fat_files.length →
      (fileDirEntry g i1).start_cluster < (fileDirEntry g i2).start_cluster) ∧
    (∀ i, i < fat_files.length → ∀ k, k < 4 →
      readBlockByte g START_ROOTDIR ((i + 1) * DirectoryEntry.BYTES + 28 + k) =
        leByte (fileDirEntry g i).size k) ∧
    (∀ i c, i < fat_files.length →
      (fat_files.getD i fatFileFallback).content = FatFileContent.Static c →
      (fileDirEntry g i).size = c.length) ∧
    ((fat_files.getD UF2_INDEX fatFileFallback).content = FatFileContent.Uf2 ∧
      (fileDirEntry g UF2_INDEX).size =
        (g.address_end - g.address_start) * UF2_BLOCKS_PER_FAT_BLOCK) ∧
    (∀ j, (fat_files.length + 1) * DirectoryEntry.BYTES ≤ j → j < BLOCK_SIZE →
      readBlockByte g START_ROOTDIR j = 0) := by
  refine ⟨fun j hj => ?_, ⟨?_, by decide⟩, fun i hi j hj => ?_, fun i hi => ⟨?_, ?_⟩,
    fun i1 i2 h12 h2 => ?_, fun i hi k hk => ?_, fun i c hi hc => ?_, ⟨rfl, rfl⟩,
    fun j hj1 hj2 => ?_⟩
  · rw [rootdir_label_byte g j (by unfold DirectoryEntry.BYTES; omega)]
    unfold dirEntryByte
    rw [if_pos hj]
    rfl
  · rw [rootdir_label_byte g 11 (by decide)]
    rfl
  · rw [rootdir_entry_byte g i j hi (by unfold DirectoryEntry.BYTES; omega)]
    unfold dirEntryByte
    rw [if_pos hj]
    rfl
  · rw [rootdir_entry_byte g i 26 hi (by decide)]
    rw [fat_files_length_eq] at hi
    have hsc : (fileDirEntry g i).start_cluster = i + 2 := rfl
    norm_num [dirEntryByte, leByte, hsc]
    omega
  · rw [rootdir_entry_byte g i 27 hi (by decide)]
    rw [fat_files_length_eq] at hi
    have hsc : (fileDirEntry g i).start_cluster = i + 2 := rfl
    norm_num [dirEntryByte, leByte, hsc]
    omega
  · show i1 + 2 < i2 + 2
    omega
  · rw [Nat.add_assoc, rootdir_entry_byte g i (28 + k) hi (by unfold DirectoryEntry.BYTES; omega)]
    interval_cases k <;> norm_num [dirEntryByte]
  · exact fileDirEntry_size_static g i c hc
  · unfold readBlockByte
    rw [if_neg (by rw [START_ROOTDIR_eq]; omega),
      if_neg (by rw [START_ROOTDIR_eq]; omega),
      if_pos (by rw [START_ROOTDIR_eq, START_CLUSTERS_eq]; omega)]
    unfold rootDirSectorByte
    rw [if_pos (by omega)]
    simp only [fat_files_length_eq, DirectoryEntry.BYTES] at hj1 ⊢
    rw [if_neg (by omega), if_neg (by omega)]

/-- Witness for C4 at the concrete flash capability. -/
theorem root_dir_first_sector_witness :
    readBlockByte flashExample START_ROOTDIR 0 = fat_boot_block.volume_label.getD 0 0 ∧
    readBlockByte flashExample START_ROOTDIR 11 = 0x28 ∧
    readBlockByte flashExample START_ROOTDIR ((2 + 1) * DirectoryEntry.BYTES + 26) = 2 + 2 ∧
    (fileDirEntry flashExample 0).start_cluster < (fileDirEntry flashExample 2).start_cluster ∧
    readBlockByte flashExample START_ROOTDIR 400 = 0 :=
  ⟨(root_dir_first_sector flashExample).1 0 (by decide),
   (root_dir_first_sector flashExample).2.1.1,
   ((root_dir_first_sector flashExample).2.2.2.1 2 (by decide)).1,
   (root_dir_first_sector flashExample).2.2.2.2.1 0 2 (by decide) (by decide),
   (root_dir_first_sector flashExample).2.2.2.2.2.2.2.2 400 (by decide) (by decide)⟩

theorem UF2_FLASH_START_eq : UF2_FLASH_START = 0x08010000 := rfl

theorem UF2_BLOCK_SIZE_eq : UF2_BLOCK_SIZE = 256 := rfl

/-- Claim C2 (amended): `write_block(lba, block)` is a no-op (state
returned unchanged, nothing decoded) exactly for
`lba < START_CLUSTERS + fat_files.len()` = `START_CLUSTERS + 3`; every
`lba` at or above that bound — with no upper bound at the end of the
dynamic file's range — hands the sector to the transfer-block codec
dispatch.  In particular the dynamic file's first sector
`START_CLUSTERS + UF2_INDEX` is ignored. -/
theorem write_block_guard (g : FlashModel) (lba : Nat) (block : List Nat) :
    (lba < START_CLUSTERS + fat_files.length → ghostFatWriteBlock g lba block = g) ∧
    (START_CLUSTERS + fat_files.length ≤ lba →
      ghostFatWriteBlock g lba block = uf2WriteDispatch g block) ∧
    ghostFatWriteBlock g (START_CLUSTERS + UF2_INDEX) block = g := by
  refine ⟨fun h => ?_, fun h => ?_, ?_⟩
  · unfold ghostFatWriteBlock
    rw [if_pos h]
  · unfold ghostFatWriteBlock
    rw [if_neg (by omega)]
  · unfold ghostFatWriteBlock
    rw [if_pos (by decide)]

/-- Witness for C2's amended theorem: lba 0 is ignored, lba 100 goes to
the codec dispatch. -/
theorem write_block_guard_witness :
    ghostFatWriteBlock flashExample 0 [] = flashExample ∧
    ghostFatWriteBlock flashExample 100 [] = uf2WriteDispatch flashExample [] :=
  ⟨(write_block_guard flashExample 0 []).1 (by decide),
   (write_block_guard flashExample 100 []).2.1 (by decide)⟩

/-- A small-page flash capability for exercising the write path:
4-byte pages, nothing staged. -/
def flashW : FlashModel :=
  { page_size := 4, address_start := 0, address_end := 1000, mem := fun _ => 7,
    page_buffer := fun _ => 0, current_page := none }

/-- A well-formed transfer block (valid magics) targeting flash address 256
with a 4-byte payload 9, 8, 7, 6. -/
def uf2Example : Uf2Block :=
  { Uf2Block.default with
    target_address := 256,
    payload_size := 4,
    data := [9, 8, 7, 6] ++ List.replicate 472 0 }

/-- The 512-byte wire form of `uf2Example`. -/
def uf2ExampleBlock : List Nat := (List.range 512).map (uf2PackByte uf2Example)

set_option maxRecDepth 100000 in
/-- Counterexample to claim C2 as stated: `START_CLUSTERS + UF2_INDEX` is
the first lba of the dynamic file's cluster range, yet `write_block`
returns with the state unchanged instead of handing the sector to the
codec (which, as the dispatch shows, would have changed flash byte 256
from 7 to 9); and the lba one past the range's last sector, outside the
claimed range, IS handed to the codec and does change flash. -/
theorem write_block_range_cex :
    ghostFatWriteBlock flashW (START_CLUSTERS + UF2_INDEX) uf2ExampleBlock = flashW ∧
    (uf2WriteDispatch flashW uf2ExampleBlock).mem 256 = 9 ∧
    flashW.mem 256 = 7 ∧
    (ghostFatWriteBlock flashW (START_CLUSTERS + UF2_INDEX + UF2_SECTORS)
      uf2ExampleBlock).mem 256 = 9 :=
  ⟨rfl, by decide, rfl, by decide⟩

/-- Claim C6: for every lba in the dynamic file's cluster range and every
512-byte block that fails transfer-block validation (for instance a
corrupted leading magic), `write_block` reports success to the
block-device caller and leaves the whole flash state unchanged. -/
theorem write_block_invalid_silent (g : FlashModel) (lba : Nat) (block : List Nat)
    (h1 : START_CLUSTERS + UF2_INDEX ≤ lba)
    (h2 : lba ≤ START_CLUSTERS + UF2_INDEX + UF2_SECTORS - 1)
    (hlen : block.length = BLOCK_SIZE)
    (hparse : Uf2Block.parse block = none) :
    blockDeviceWriteBlock g lba block = (true, g) := by
  unfold blockDeviceWriteBlock ghostFatWriteBlock
  by_cases hc : lba < START_CLUSTERS + fat_files.length
  · rw [if_pos hc]
  · rw [if_neg hc]
    unfold uf2WriteDispatch
    rw [if_neg (by rw [hlen]; unfold Uf2Block.BYTES BLOCK_SIZE; omega), hparse]

set_option maxRecDepth 100000 in
/-- Witness for C6: an all-zero sector (leading magic 0) written to a
dynamic-range lba is silently dropped. -/
theorem write_block_invalid_silent_witness :
    blockDeviceWriteBlock flashExample 100 (List.replicate 512 0) = (true, flashExample) :=
  write_block_invalid_silent flashExample 100 (List.replicate 512 0) (by decide) (by decide)
    rfl rfl

/-- Claim C5 (amended): for a dynamic-range lba whose mapped flash address
passes the source's window containment check, the encoded transfer block
carries the 256 live flash bytes at that address, `payload_size = 256`,
`block_number = (address - UF2_FLASH_START) / 256` — measured from the
fixed constant `UF2_FLASH_START = 0x08010000`, not from the window start —
and `number_of_blocks = (window_end - window_start) / 256`, rounding down,
where the window bounds come from the flash capability's inclusive address
range; the sector read back is that block's 512-byte serialization. -/
theorem uf2_encode_amended (g : FlashModel) (lba n : Nat)
    (h1 : START_CLUSTERS + UF2_INDEX ≤ lba)
    (h2 : lba ≤ START_CLUSTERS + UF2_INDEX + UF2_SECTORS - 1)
    (hn : n = lba - START_CLUSTERS - UF2_INDEX)
    (hw : g.address_start ≤ UF2_FLASH_START + n * UF2_BLOCK_SIZE ∧
          UF2_FLASH_START + n * UF2_BLOCK_SIZE ≤ g.address_end ∧
          g.address_start ≤ UF2_FLASH_START + n * UF2_BLOCK_SIZE + UF2_BLOCK_SIZE ∧
          UF2_FLASH_START + n * UF2_BLOCK_SIZE + UF2_BLOCK_SIZE ≤ g.address_end) :
    (∀ j, j < BLOCK_SIZE → readBlockByte g lba j = uf2PackByte (uf2BlockFor g n) j) ∧
    (uf2BlockFor g n).payload_size = UF2_BLOCK_SIZE ∧
    (uf2BlockFor g n).target_address = UF2_FLASH_START + n * UF2_BLOCK_SIZE ∧
    (uf2BlockFor g n).block_number =
      (UF2_FLASH_START + n * UF2_BLOCK_SIZE - UF2_FLASH_START) / UF2_BLOCK_SIZE ∧
    (uf2BlockFor g n).number_of_blocks = (g.address_end - g.address_start) / UF2_BLOCK_SIZE ∧
    (∀ i, i < UF2_BLOCK_SIZE →
      (uf2BlockFor g n).data.getD i 0 = g.mem (UF2_FLASH_START + n * UF2_BLOCK_SIZE + i)) := by
  rw [START_CLUSTERS_eq, UF2_INDEX_eq] at h1 hn
  refine ⟨fun j hj => ?_, rfl, rfl, ?_, rfl, fun i hi => ?_⟩
  · unfold readBlockByte
    rw [if_neg (by omega), if_neg (by rw [START_ROOTDIR_eq]; omega),
      if_neg (by rw [START_CLUSTERS_eq]; omega)]
    unfold dataSectorByte
    rw [START_CLUSTERS_eq]
    rw [if_neg (by rw [UF2_INDEX_eq]; omega)]
    have hsec : lba - 69 - 2 = n := by omega
    rw [hsec, if_pos hw]
  · show n = (UF2_FLASH_START + n * UF2_BLOCK_SIZE - UF2_FLASH_START) / UF2_BLOCK_SIZE
    rw [UF2_FLASH_START_eq, UF2_BLOCK_SIZE_eq]
    omega
  · rw [UF2_BLOCK_SIZE_eq] at hi
    unfold uf2BlockFor
    simp only [UF2_BLOCK_SIZE_eq]
    rw [List.getD_eq_getElem?_getD, List.getElem?_append, if_pos (by simpa using hi),
      List.getElem?_map, List.getElem?_range hi]
    rfl

/-- Witness for C5's amended theorem: the first dynamic-file sector of
`flashExample` (mapped address `UF2_FLASH_START`, inside the window). -/
theorem uf2_encode_amended_witness :
    readBlockByte flashExample (START_CLUSTERS + UF2_INDEX) 16 =
      uf2PackByte (uf2BlockFor flashExample 0) 16 ∧
    (uf2BlockFor flashExample 0).payload_size = UF2_BLOCK_SIZE ∧
    (uf2BlockFor flashExample 0).block_number =
      (UF2_FLASH_START + 0 * UF2_BLOCK_SIZE - UF2_FLASH_START) / UF2_BLOCK_SIZE ∧
    (uf2BlockFor flashExample 0).data.getD 3 0 =
      flashExample.mem (UF2_FLASH_START + 0 * UF2_BLOCK_SIZE + 3) :=
  ⟨(uf2_encode_amended flashExample (START_CLUSTERS + UF2_INDEX) 0 (by decide) (by decide)
      (by decide) ⟨by decide, by decide, by decide, by decide⟩).1 16 (by decide),
   (uf2_encode_amended flashExample (START_CLUSTERS + UF2_INDEX) 0 (by decide) (by decide)
      (by decide) ⟨by decide, by decide, by decide, by decide⟩).2.1,
   (uf2_encode_amended flashExample (START_CLUSTERS + UF2_INDEX) 0 (by decide) (by decide)
      (by decide) ⟨by decide, by decide, by decide, by decide⟩).2.2.2.1,
   (uf2_encode_amended flashExample (START_CLUSTERS + UF2_INDEX) 0 (by decide) (by decide)
      (by decide) ⟨by decide, by decide, by decide, by decide⟩).2.2.2.2.2 3 (by decide)⟩

/-- A flash capability whose window starts below `UF2_FLASH_START` and has
a span that is not a multiple of 256 bytes. -/
def flashMisalignedWindow : FlashModel :=
  { page_size := 1024, address_start := 0x08000000, address_end := 0x08020080,
    mem := fun _ => 0, page_buffer := fun _ => 0, current_page := none }

/-- Counterexample to claim C5 as stated: for the first dynamic-file sector
of `flashMisalignedWindow` the mapped address `UF2_FLASH_START` passes the
window check, yet the encoded block's `block_number` is 0 while the claim's
formula `(address - window_start) / 256` gives 256 (so serialized byte 21,
the second little-endian byte of `block_number`, is 0 where the claim
demands 1), and `number_of_blocks` is 512 while `ceil(window_size / 256)`
on the inclusive window's byte count gives 513. -/
theorem uf2_encode_window_cex :
    (flashMisalignedWindow.address_start ≤ UF2_FLASH_START ∧
     UF2_FLASH_START ≤ flashMisalignedWindow.address_end ∧
     flashMisalignedWindow.address_start ≤ UF2_FLASH_START + UF2_BLOCK_SIZE ∧
     UF2_FLASH_START + UF2_BLOCK_SIZE ≤ flashMisalignedWindow.address_end) ∧
    (uf2BlockFor flashMisalignedWindow 0).block_number = 0 ∧
    (UF2_FLASH_START - flashMisalignedWindow.address_start) / UF2_BLOCK_SIZE = 256 ∧
    (uf2BlockFor flashMisalignedWindow 0).number_of_blocks = 512 ∧
    (flashMisalignedWindow.address_end - flashMisalignedWindow.address_start + 1
        + (UF2_BLOCK_SIZE - 1)) / UF2_BLOCK_SIZE = 513 ∧
    readBlockByte flashMisalignedWindow (START_CLUSTERS + UF2_INDEX) 21 = 0 ∧
    leByte ((UF2_FLASH_START - flashMisalignedWindow.address_start) / UF2_BLOCK_SIZE) 1 = 1 :=
  ⟨⟨by decide, by decide, by decide, by decide⟩, rfl, by decide, rfl, by decide,
   by decide, by decide⟩

/-! ### Verification of the page write coalescer (claim C1) -/

theorem readPage_mem (g : FlashModel) (p : Nat) : (readPage g p).mem = g.mem := rfl

theorem readPage_page_size (g : FlashModel) (p : Nat) :
    (readPage g p).page_size = g.page_size := rfl

theorem flushPage_of_none (g : FlashModel) (hc : g.current_page = none) :
    flushPage g = g := by
  unfold flushPage
  rw [hc]

theorem flushPage_of_some (g : FlashModel) (p : Nat) (hc : g.current_page = some p) :
    flushPage g = { g with mem := fun a =>
      if p ≤ a ∧ a < p + g.page_size then g.page_buffer (a - p) else g.mem a } := by
  unfold flushPage
  rw [hc]

/-- The page loop of `write_bytes`, unrolled: `writeBytesLoop A bytes S ps g m`
is the state after the loop body has run on the first `m` pages
`S, S + ps, …, S + (m-1)·ps`. -/
def writeBytesLoop (address : Nat) (bytes : List Nat) (S ps : Nat) (g : FlashModel) :
    Nat → FlashModel
  | 0 => g
  | m + 1 => writeBytesGo address bytes (writeBytesLoop address bytes S ps g m) (S + m * ps)

theorem foldl_writeBytesGo_loop (address : Nat) (bytes : List Nat) (S ps : Nat)
    (g : FlashModel) (N : Nat) :
    ((List.range N).map (fun t => S + t * ps)).foldl (writeBytesGo address bytes) g =
      writeBytesLoop address bytes S ps g N := by
  induction N with
  | zero => rfl
  | succ n ih =>
    rw [List.range_succ, List.map_append, List.foldl_append, ih]
    rfl

/-- `page_address` with a power-of-two page size rounds the address down to
a multiple of the page size (for addresses inside the 32-bit space). -/
theorem page_address_pow (k a : Nat) (hk : k ≤ 32) (ha : a < 2 ^ 32) :
    page_address (2 ^ k) a = 2 ^ k * (a / 2 ^ k) := by
  have hrw : 2 ^ k * (a / 2 ^ k) = (a >>> k) <<< k := by
    rw [Nat.shiftRight_eq_div_pow, Nat.shiftLeft_eq, Nat.mul_comm]
  have hm : (2 : Nat) ^ 32 - 2 ^ k = (2 ^ (32 - k) - 1) <<< k := by
    rw [Nat.shiftLeft_eq, Nat.sub_mul, one_mul, ← Nat.pow_add, Nat.sub_add_cancel hk]
  rw [page_address, hrw, hm]
  apply Nat.eq_of_testBit_eq
  intro i
  rw [Nat.testBit_land, Nat.testBit_shiftLeft, Nat.testBit_shiftLeft, Nat.testBit_shiftRight,
    Nat.testBit_two_pow_sub_one]
  by_cases hki : k ≤ i
  · have hik : k + (i - k) = i := by omega
    rw [hik]
    by_cases hi32 : i < 32
    · have h1 : i - k < 32 - k := by omega
      simp [hki, h1]
    · have hb : a.testBit i = false :=
        Nat.testBit_lt_two_pow (lt_of_lt_of_le ha (Nat.pow_le_pow_right (by norm_num) (by omega)))
      simp [hb]
  · simp [hki]

/-- Loop invariant of the page write coalescer: after the loop body has
processed page `P`, page `P` is staged with the relevant slice of `bytes`
overlaid on the original memory, every earlier touched page has been
flushed (memory below `P` already shows the new bytes inside the written
range and the original bytes outside it), and memory from `P` on is
untouched. -/
def CoalescerInv (g : FlashModel) (A : Nat) (bytes : List Nat) (ps P : Nat)
    (h : FlashModel) : Prop :=
  h.page_size = ps ∧
  h.current_page = some P ∧
  (∀ x, h.mem x =
    if A ≤ x ∧ x < A + bytes.length ∧ x < P then bytes.getD (x - A) 0 else g.mem x) ∧
  (∀ j, j < ps → h.page_buffer j =
    if A ≤ P + j ∧ P + j < A + bytes.length then bytes.getD (P + j - A) 0 else g.mem (P + j))

theorem coalescerInv_overlay (g g1 : FlashModel) (A : Nat) (bytes : List Nat) (ps P : Nat)
    (hps1 : g1.page_size = ps) (hc1 : g1.current_page = some P)
    (hm1 : ∀ x, g1.mem x =
      if A ≤ x ∧ x < A + bytes.length ∧ x < P then bytes.getD (x - A) 0 else g.mem x)
    (hb1 : ∀ j, j < ps → g1.page_buffer j = g.mem (P + j))
    (hAP : A < P + ps)
    (hPL : A ≤ P → P ≤ A + bytes.length - 1)
    (hlen : 0 < bytes.length) :
    CoalescerInv g A bytes ps P
      (if P < A then
        { g1 with page_buffer := fun j =>
            if A - P ≤ j ∧ j < (A - P) + min (g1.page_size - (A - P)) bytes.length then
              bytes.getD (j - (A - P)) 0
            else g1.page_buffer j }
      else
        { g1 with page_buffer := fun j =>
            if j < min (bytes.length - (P - A)) g1.page_size then bytes.getD ((P - A) + j) 0
            else g1.page_buffer j }) := by
  rw [hps1]
  unfold CoalescerInv
  by_cases hlt : P < A
  · rw [if_pos hlt]
    refine ⟨rfl, hc1, fun x => hm1 x, fun j hj => ?_⟩
    change (if A - P ≤ j ∧ j < (A - P) + min (ps - (A - P)) bytes.length then
        bytes.getD (j - (A - P)) 0 else g1.page_buffer j) = _
    by_cases hcond : A - P ≤ j ∧ j < (A - P) + min (ps - (A - P)) bytes.length
    · rw [if_pos hcond, if_pos (by omega)]
      congr 1
      omega
    · rw [if_neg hcond, if_neg (by omega), hb1 j hj]
  · rw [if_neg hlt]
    have hPLe : P ≤ A + bytes.length - 1 := hPL (by omega)
    refine ⟨rfl, hc1, fun x => hm1 x, fun j hj => ?_⟩
    change (if j < min (bytes.length - (P - A)) ps then bytes.getD ((P - A) + j) 0
        else g1.page_buffer j) = _
    by_cases hcond : j < min (bytes.length - (P - A)) ps
    · rw [if_pos hcond, if_pos (by omega)]
      congr 1
      omega
    · rw [if_neg hcond, if_neg (by omega), hb1 j hj]

theorem coalescerInv_base (g : FlashModel) (A : Nat) (bytes : List Nat) (ps S : Nat)
    (hps : g.page_size = ps)
    (hclean : ∀ p, g.current_page = some p → ∀ j, j < g.page_size →
      g.page_buffer j = g.mem (p + j))
    (hSA : S ≤ A) (hAS : A < S + ps) (hlen : 0 < bytes.length) :
    CoalescerInv g A bytes ps S (writeBytesGo A bytes g S) := by
  have hmem0 : ∀ x, g.mem x =
      if A ≤ x ∧ x < A + bytes.length ∧ x < S then bytes.getD (x - A) 0 else g.mem x := by
    intro x
    rw [if_neg (by omega)]
  unfold writeBytesGo
  cases hcp : g.current_page with
  | none =>
    exact coalescerInv_overlay g (readPage g S) A bytes ps S (by rw [readPage_page_size, hps])
      rfl (fun x => hmem0 x) (fun j hj => rfl) (by omega) (fun _ => by omega) hlen
  | some cp =>
    dsimp only
    by_cases hcpS : cp = S
    · subst hcpS
      rw [if_pos rfl]
      exact coalescerInv_overlay g g A bytes ps cp hps hcp (fun x => hmem0 x)
        (fun j hj => hclean cp hcp j (by omega)) (by omega) (fun _ => by omega) hlen
    · rw [if_neg hcpS]
      have hflush : ∀ x, (flushPage g).mem x = g.mem x := by
        intro x
        rw [flushPage_of_some g cp hcp]
        dsimp only
        by_cases hx : cp ≤ x ∧ x < cp + g.page_size
        · rw [if_pos hx, hclean cp hcp (x - cp) (by omega)]
          congr 1
          omega
        · rw [if_neg hx]
      refine coalescerInv_overlay g (readPage (flushPage g) S) A bytes ps S ?_ rfl
        (fun x => ?_) (fun j hj => ?_) (by omega) (fun _ => by omega) hlen
      · rw [readPage_page_size, flushPage_of_some g cp hcp]
        exact hps
      · rw [readPage_mem, hflush x]
        exact hmem0 x
      · show (flushPage g).mem (S + j) = g.mem (S + j)
        exact hflush (S + j)

theorem coalescerInv_step (g h : FlashModel) (A : Nat) (bytes : List Nat) (ps p : Nat)
    (hinv : CoalescerInv g A bytes ps p h) (hpos : 0 < ps)
    (hA : A < p + ps) (hup : p + ps ≤ A + bytes.length - 1) (hlen : 0 < bytes.length) :
    CoalescerInv g A bytes ps (p + ps) (writeBytesGo A bytes h (p + ps)) := by
  obtain ⟨hps, hcp, hmem, hbuf⟩ := hinv
  have hM : ∀ x, (flushPage h).mem x =
      if A ≤ x ∧ x < A + bytes.length ∧ x < p + ps then bytes.getD (x - A) 0
      else g.mem x := by
    intro x
    rw [flushPage_of_some h p hcp]
    dsimp only
    rw [hps]
    by_cases hx : p ≤ x ∧ x < p + ps
    · rw [if_pos hx, hbuf (x - p) (by omega)]
      have hpx : p + (x - p) = x := by omega
      rw [hpx]
      by_cases hin : A ≤ x ∧ x < A + bytes.length
      · rw [if_pos hin, if_pos (by omega)]
      · rw [if_neg hin, if_neg (by omega)]
    · rw [if_neg hx, hmem x]
      by_cases hin : A ≤ x ∧ x < A + bytes.length ∧ x < p
      · rw [if_pos hin, if_pos (by omega)]
      · rw [if_neg hin]
        by_cases hin2 : A ≤ x ∧ x < A + bytes.length ∧ x < p + ps
        · exact absurd (⟨by omega, by omega⟩ : p ≤ x ∧ x < p + ps) hx
        · rw [if_neg hin2]
  unfold writeBytesGo
  rw [hcp]
  dsimp only
  rw [if_neg (by omega : ¬ p = p + ps)]
  refine coalescerInv_overlay g (readPage (flushPage h) (p + ps)) A bytes ps (p + ps) ?_ rfl
    (fun x => ?_) (fun j hj => ?_) (by omega) (fun _ => hup) hlen
  · rw [readPage_page_size, flushPage_of_some h p hcp]
    exact hps
  · rw [readPage_mem]
    exact hM x
  · show (flushPage h).mem (p + ps + j) = g.mem (p + ps + j)
    rw [hM (p + ps + j), if_neg (by omega)]

theorem coalescerInv_loop (g : FlashModel) (A : Nat) (bytes : List Nat) (ps S N : Nat)
    (hps : g.page_size = ps) (hpos : 0 < ps)
    (hclean : ∀ p, g.current_page = some p → ∀ j, j < g.page_size →
      g.page_buffer j = g.mem (p + j))
    (hSA : S ≤ A) (hAS : A < S + ps) (hlen : 0 < bytes.length)
    (hpages : ∀ m, m < N → S + m * ps ≤ A + bytes.length - 1) :
    ∀ m, 1 ≤ m → m ≤ N →
      CoalescerInv g A bytes ps (S + (m - 1) * ps) (writeBytesLoop A bytes S ps g m) := by
  intro m
  induction m with
  | zero => intro h1 _; omega
  | succ n ih =>
    intro h1 hN
    rcases Nat.eq_zero_or_pos n with hn | hn
    · subst hn
      show CoalescerInv g A bytes ps (S + (1 - 1) * ps)
        (writeBytesGo A bytes (writeBytesLoop A bytes S ps g 0) (S + 0 * ps))
      have e : S + (1 - 1) * ps = S := by omega
      rw [e]
      exact coalescerInv_base g A bytes ps S hps hclean hSA hAS hlen
    · have hinv := ih (by omega) (by omega)
      have e3 : S + (n - 1) * ps + ps = S + n * ps := by
        have e5 : (n - 1) * ps + ps = n * ps := by
          have h4 : n - 1 + 1 = n := by omega
          calc (n - 1) * ps + ps = (n - 1 + 1) * ps := (Nat.succ_mul _ _).symm
          _ = n * ps := by rw [h4]
        omega
      have hA' : A < S + (n - 1) * ps + ps := by
        have h6 : S + ps ≤ S + (n - 1) * ps + ps := by omega
        omega
      have hup' : S + (n - 1) * ps + ps ≤ A + bytes.length - 1 := by
        rw [e3]
        exact hpages n (by omega)
      have hstep := coalescerInv_step g _ A bytes ps (S + (n - 1) * ps) hinv hpos hA' hup' hlen
      rw [e3] at hstep
      show CoalescerInv g A bytes ps (S + (n + 1 - 1) * ps)
        (writeBytesGo A bytes (writeBytesLoop A bytes S ps g n) (S + n * ps))
      have e4 : n + 1 - 1 = n := rfl
      rw [e4]
      exact hstep

theorem write_bytes_mem (g : FlashModel) (A : Nat) (bytes : List Nat) (k : Nat)
    (hps : g.page_size = 2 ^ k) (hk : k ≤ 32)
    (hlen : 0 < bytes.length) (hbound : A + bytes.length ≤ 2 ^ 32)
    (hclean : ∀ p, g.current_page = some p → ∀ j, j < g.page_size →
      g.page_buffer j = g.mem (p + j)) :
    ∀ x, (write_bytes g A bytes).mem x =
      if A ≤ x ∧ x < A + bytes.length then bytes.getD (x - A) 0 else g.mem x := by
  have hpos : 0 < 2 ^ k := Nat.two_pow_pos k
  have hA32 : A < 2 ^ 32 := by omega
  have hB32 : A + bytes.length - 1 < 2 ^ 32 := by omega
  have hd1 := Nat.div_add_mod A (2 ^ k)
  have hm1 : A % 2 ^ k < 2 ^ k := Nat.mod_lt _ hpos
  have hd2 := Nat.div_add_mod (A + bytes.length - 1) (2 ^ k)
  have hm2 : (A + bytes.length - 1) % 2 ^ k < 2 ^ k := Nat.mod_lt _ hpos
  have hq : A / 2 ^ k ≤ (A + bytes.length - 1) / 2 ^ k :=
    Nat.div_le_div_right (by omega)
  have hES : 2 ^ k * ((A + bytes.length - 1) / 2 ^ k) - 2 ^ k * (A / 2 ^ k)
      = 2 ^ k * ((A + bytes.length - 1) / 2 ^ k - A / 2 ^ k) :=
    (Nat.mul_sub_left_distrib _ _ _).symm
  have hNdiv : (2 ^ k * ((A + bytes.length - 1) / 2 ^ k) - 2 ^ k * (A / 2 ^ k)) / 2 ^ k
      = (A + bytes.length - 1) / 2 ^ k - A / 2 ^ k := by
    rw [hES, Nat.mul_div_cancel_left _ hpos]
  intro x
  unfold write_bytes
  rw [hps, page_address_pow k A hk hA32, page_address_pow k (A + bytes.length - 1) hk hB32]
  dsimp only
  rw [foldl_writeBytesGo_loop, hNdiv]
  have hSmul : ∀ m : Nat, m < (A + bytes.length - 1) / 2 ^ k - A / 2 ^ k + 1 →
      2 ^ k * (A / 2 ^ k) + m * 2 ^ k ≤ A + bytes.length - 1 := by
    intro m hm
    have h5 : m * 2 ^ k ≤ ((A + bytes.length - 1) / 2 ^ k - A / 2 ^ k) * 2 ^ k :=
      Nat.mul_le_mul_right _ (by omega)
    have h6 : ((A + bytes.length - 1) / 2 ^ k - A / 2 ^ k) * 2 ^ k
        = 2 ^ k * ((A + bytes.length - 1) / 2 ^ k) - 2 ^ k * (A / 2 ^ k) := by
      rw [Nat.mul_comm, hES]
    omega
  have hloop := coalescerInv_loop g A bytes (2 ^ k) (2 ^ k * (A / 2 ^ k))
    ((A + bytes.length - 1) / 2 ^ k - A / 2 ^ k + 1) hps hpos hclean (by omega) (by omega)
    hlen hSmul ((A + bytes.length - 1) / 2 ^ k - A / 2 ^ k + 1) (by omega) (Nat.le_refl _)
  have hpage : 2 ^ k * (A / 2 ^ k) +
      ((A + bytes.length - 1) / 2 ^ k - A / 2 ^ k + 1 - 1) * 2 ^ k
      = 2 ^ k * ((A + bytes.length - 1) / 2 ^ k) := by
    have e : (A + bytes.length - 1) / 2 ^ k - A / 2 ^ k + 1 - 1
        = (A + bytes.length - 1) / 2 ^ k - A / 2 ^ k := rfl
    rw [e, Nat.mul_comm ((A + bytes.length - 1) / 2 ^ k - A / 2 ^ k) (2 ^ k),
      ← Nat.left_distrib]
    congr 1
    omega
  rw [hpage] at hloop
  obtain ⟨hps_h, hcp_h, hmem_h, hbuf_h⟩ := hloop
  rw [flushPage_of_some _ _ hcp_h]
  dsimp only
  rw [hps_h]
  by_cases hx : 2 ^ k * ((A + bytes.length - 1) / 2 ^ k) ≤ x ∧
      x < 2 ^ k * ((A + bytes.length - 1) / 2 ^ k) + 2 ^ k
  · rw [if_pos hx, hbuf_h (x - 2 ^ k * ((A + bytes.length - 1) / 2 ^ k)) (by omega)]
    have hxe : 2 ^ k * ((A + bytes.length - 1) / 2 ^ k) +
        (x - 2 ^ k * ((A + bytes.length - 1) / 2 ^ k)) = x := by omega
    rw [hxe]
  · rw [if_neg hx, hmem_h x]
    by_cases hin : A ≤ x ∧ x < A + bytes.length
    · rw [if_pos (⟨hin.1, hin.2, by omega⟩ :
        A ≤ x ∧ x < A + bytes.length ∧ x < 2 ^ k * ((A + bytes.length - 1) / 2 ^ k)),
        if_pos hin]
    · rw [if_neg (by omega), if_neg hin]

/-- Claim C1: under the precondition that every flash capability operation
succeeds (modelled by the total in-memory flash, whose staged page — if
any — is clean, as every completed flush leaves it), with the trait's
power-of-two page size and the written range inside the 32-bit address
space, `write_bytes(address, bytes)` leaves every flash byte outside
`[address, address + bytes.len())` unchanged and makes every byte inside
that range equal to the corresponding input byte, for any number of pages
the range spans. -/
theorem write_bytes_correct (g : FlashModel) (address : Nat) (bytes : List Nat) (k : Nat)
    (hps : g.page_size = 2 ^ k) (hk : k ≤ 32)
    (hlen : 0 < bytes.length) (hbound : address + bytes.length ≤ 2 ^ 32)
    (hclean : ∀ p, g.current_page = some p → ∀ j, j < g.page_size →
      g.page_buffer j = g.mem (p + j)) :
    (∀ x, x < address ∨ address + bytes.length ≤ x →
      (write_bytes g address bytes).mem x = g.mem x) ∧
    (∀ i, i < bytes.length →
      (write_bytes g address bytes).mem (address + i) = bytes.getD i 0) := by
  have hmain := write_bytes_mem g address bytes k hps hk hlen hbound hclean
  refine ⟨fun x hx => ?_, fun i hi => ?_⟩
  · rw [hmain x, if_neg (by omega)]
  · rw [hmain (address + i), if_pos (by omega)]
    congr 1
    omega

/-- Witness for C1: a 3-byte write at address 5 into `flashW` (4-byte
pages, so the range spans two pages) leaves bytes 4 and 8 unchanged and
stores the middle input byte at address 6. -/
theorem write_bytes_correct_witness :
    (write_bytes flashW 5 [1, 2, 3]).mem 4 = flashW.mem 4 ∧
    (write_bytes flashW 5 [1, 2, 3]).mem 8 = flashW.mem 8 ∧
    (write_bytes flashW 5 [1, 2, 3]).mem (5 + 1) = [1, 2, 3].getD 1 0 :=
  ⟨(write_bytes_correct flashW 5 [1, 2, 3] 2 rfl (by decide) (by decide) (by decide)
      (fun p hp => Option.noConfusion hp)).1 4 (Or.inl (by decide)),
   (write_bytes_correct flashW 5 [1, 2, 3] 2 rfl (by decide) (by decide) (by decide)
      (fun p hp => Option.noConfusion hp)).1 8 (Or.inr (by decide)),
   (write_bytes_correct flashW 5 [1, 2, 3] 2 rfl (by decide) (by decide) (by decide)
      (fun p hp => Option.noConfusion hp)).2 1 (by decide)⟩
